import Mathlib

/-!
Verification development for the Study-Assistant API-orchestration layer
(`fetchWithRetry`, `safeParseJson`, `analyzePdfContentComprehensive`,
`generateQuestions` from the Gemini service module).

The JavaScript functions are shallowly embedded:
* HTTP transport (`fetch`) is an oracle `Nat → FetchOutcome ε` giving, per attempt
  number, either a resolved response (its status code) or a rejected promise
  carrying a network-level error of type `ε`.
* JS `Error` objects thrown by the wrapper are an inductive type; a fresh
  `new Error(...)` at a given throw site is a distinct constructor application.
* `String.prototype.trim` and the fence-stripping `String.prototype.replace` are
  modelled character-by-character on `List Char`.
* `JSON.parse` (a host builtin, not repository code) is an oracle
  `String → Option J`: `none` models a thrown `SyntaxError`.
* The per-page model call made by the batch orchestrator (the repository's
  `analyzeIndividualPage`, whose observable outcome for the orchestrator is
  "an analysis object or a thrown error") is an oracle
  `Nat → String → Except ε PageAnalysis`.
* The observable side effects the specification talks about (number of fetch
  attempts, backoff waits, `console.error` diagnostics) are recorded in the
  returned trace structures.
-/

namespace StudyAssistantV3

/-! ## JS string primitives -/

/-- JS `String.prototype.trim` on the character list: drop whitespace from both
ends (on the ASCII whitespace the repository's data contains, JS and Lean
whitespace predicates agree). -/
def trimChars (cs : List Char) : List Char :=
  ((cs.dropWhile Char.isWhitespace).reverse.dropWhile Char.isWhitespace).reverse

/-- JS `s.trim()`. -/
def jsTrim (s : String) : String := String.mk (trimChars s.data)

/-- `[...new Set(xs)]`: deduplicate keeping the first occurrence of each
element, preserving insertion order (JS `Set` iteration order). -/
def jsSetDedup (xs : List String) : List String :=
  xs.foldl (fun acc a => if a ∈ acc then acc else acc ++ [a]) []

/-! ## `fetchWithRetry` (src/unnamed/part_000, lines 31-66) -/

/-- Outcome of one `fetch(url, options)` call: a resolved `Response` (only its
`status` is observable to the wrapper) or a rejected promise with a
network-level error. -/
inductive FetchOutcome (ε : Type) where
  | resp (status : Nat)
  | netErr (e : ε)
deriving DecidableEq

/-- The JS `Error` values created inside `fetchWithRetry`, plus transport
errors.  Each `new Error(...)` site is one constructor, so two errors from
different sites are distinct values (as the distinct freshly allocated JS
`Error` objects are). -/
inductive FetchError (ε : Type) where
  /-- `new Error(⟨HTTP error! status: ${response.status}⟩)` -/
  | httpError (status : Nat)
  /-- the error with which the transport itself rejected -/
  | netError (e : ε)
  /-- `new Error(⟨Failed to fetch from ${url} after ${retries} attempts.⟩)` -/
  | exhausted (url : String) (retries : Nat)
deriving DecidableEq

/-- The `message` string of a `FetchError`, given a rendering `msg` of the
transport's own errors; transcribes the template literals of the source. -/
def FetchError.message {ε : Type} (msg : ε → String) : FetchError ε → String
  | .httpError status => "HTTP error! status: " ++ toString status
  | .netError e => msg e
  | .exhausted url retries =>
      "Failed to fetch from " ++ url ++ " after " ++ toString retries ++ " attempts."

/-- What `fetchWithRetry` settles with: the returned `Response`'s status, or the
thrown error. -/
inductive RetryFinal (ε : Type) where
  | success (status : Nat)
  | error (e : FetchError ε)
deriving DecidableEq

/-- Result of `fetchWithRetry` together with its observable trace: how many
`fetch` calls were issued and the durations (ms) of the `setTimeout` backoff
waits, in order. -/
structure RetryTrace (ε : Type) where
  final : RetryFinal ε
  fetches : Nat
  waits : List Nat
deriving DecidableEq

/-- `response.ok`: status in the range 200-299. -/
def respOk (status : Nat) : Bool := 200 ≤ status && status < 300

/-- `response.status >= 500 && response.status < 600`. -/
def isServerError (status : Nat) : Bool := 500 ≤ status && status < 600

/-- The `for (let i = 0; i < retries; i++)` loop of `fetchWithRetry`, with
`remaining = retries - i` iterations left, current `delay`, `nFetches` fetch
calls made so far and `waits` the backoff waits so far.  Faithful to the
source: the `throw new Error(⟨HTTP error! ...⟩)` on a non-ok, non-5xx status
sits inside the `try` block, so it is caught by the wrapper's own `catch`,
which waits `delay`, doubles `delay` and lets the loop continue — exactly as
the network-failure path does. -/
def fetchLoop {ε : Type} (transport : Nat → FetchOutcome ε) (url : String)
    (retries : Nat) : Nat → Nat → Nat → List Nat → RetryTrace ε
  | 0, _, nFetches, waits =>
      -- loop exhausted: throw new Error(`Failed to fetch from ${url} after ${retries} attempts.`)
      ⟨.error (.exhausted url retries), nFetches, waits⟩
  | remaining + 1, delay, nFetches, waits =>
      match transport nFetches with
      | .resp status =>
          if respOk status then
            ⟨.success status, nFetches + 1, waits⟩
          else if isServerError status then
            -- 5xx: await wait(delay); delay *= 2; continue
            fetchLoop transport url retries remaining (delay * 2) (nFetches + 1) (waits ++ [delay])
          else
            -- non-ok, non-5xx: `throw new Error(...)` — caught by the catch
            -- block below it, which waits `delay`, doubles and continues
            fetchLoop transport url retries remaining (delay * 2) (nFetches + 1) (waits ++ [delay])
      | .netErr _ =>
          -- network failure: caught, wait `delay`, double, continue
          fetchLoop transport url retries remaining (delay * 2) (nFetches + 1) (waits ++ [delay])

/-- Default `retries = 3` of `fetchWithRetry`. -/
def defaultRetries : Nat := 3

/-- Default `delay = 1000` (ms) of `fetchWithRetry`. -/
def defaultDelay : Nat := 1000

/-- `fetchWithRetry(url, options, retries, delay)`; the request `options` play
no role in the control flow and are not modelled. -/
def fetchWithRetry {ε : Type} (transport : Nat → FetchOutcome ε) (url : String)
    (retries delay : Nat) : RetryTrace ε :=
  fetchLoop transport url retries retries delay 0 []

/-- `true` iff attempt number `n` does not produce an ok (2xx) response. -/
def attemptFailsB {ε : Type} (transport : Nat → FetchOutcome ε) (n : Nat) : Bool :=
  match transport n with
  | .resp status => !(respOk status)
  | .netErr _ => true

/-! ## `safeParseJson` (src/unnamed/part_000, lines 73-81) -/

/-- One scan step of the global regex replace
`text.replace(/⟨triple-backtick⟩json\n?|\n?⟨triple-backtick⟩/g, '')`:
at the current position, the ordered alternatives are tried — `⟨fence⟩json`
with greedy optional `\n` first, then optional `\n` followed by `⟨fence⟩` —
and on a match the scan resumes after it; otherwise the character is kept
and the scan advances by one. -/
def replStep (recur : List Char → List Char) (cs : List Char) : List Char :=
  if ("```json\n".data).isPrefixOf cs = true then recur (cs.drop 8)
  else if ("```json".data).isPrefixOf cs = true then recur (cs.drop 7)
  else if ("\n```".data).isPrefixOf cs = true then recur (cs.drop 4)
  else if ("```".data).isPrefixOf cs = true then recur (cs.drop 3)
  else
    match cs with
    | [] => []
    | c :: rest => c :: recur rest

/-- Fuelled fixpoint of `replStep`; every step consumes at least one character,
so fuel `cs.length` always suffices. -/
def replFuel : Nat → List Char → List Char
  | 0, cs => cs
  | fuel + 1, cs => replStep (replFuel fuel) cs

/-- The full global replace. -/
def replChars (cs : List Char) : List Char := replFuel cs.length cs

/-- `const cleanedText = text.replace(/.../g, '').trim();` -/
def cleanText (text : String) : String := jsTrim (String.mk (replChars text.data))

/-- The observable failure of `safeParseJson`: the thrown
`new Error("Invalid JSON response from API. ...")` together with the
`{ rawContent: text }` payload passed to `console.error` at the same throw
site for diagnostics. -/
structure ParseFailure where
  message : String
  rawContent : String
deriving DecidableEq

/-- `safeParseJson`, parameterised by the host's `JSON.parse` (`none` models a
thrown `SyntaxError`): clean the text, try to parse it, and on failure fail
with the diagnostic error instead of crashing. -/
def safeParseJson {J : Type} (jsonParse : String → Option J) (text : String) :
    Except ParseFailure J :=
  match jsonParse (cleanText text) with
  | some v => Except.ok v
  | none =>
      Except.error
        ⟨"Invalid JSON response from API. The response could not be parsed.", text⟩

/-! ## `analyzePdfContentComprehensive` (src/unnamed/part_000, lines 317-361) -/

/-- The analysis object `analyzeIndividualPage` resolves with for one page
(part_000 lines 280-286).  `tnpscCategories` is `Option`al because the loop
reads `analysis.tnpscCategories`, which that producer may leave undefined;
study points are kept abstract as strings. -/
structure PageAnalysis where
  keyPoints : List String
  studyPoints : List String
  summary : String
  tnpscRelevance : String
  tnpscCategories : Option (List String)
deriving DecidableEq

/-- Mutable state of the page loop: the accumulators plus the observable
trace (`calls` = pages for which a model call was issued, `failedPages` =
pages whose failure was logged via `console.error` before continuing). -/
structure BatchState where
  pageAnalyses : List (Nat × PageAnalysis)
  allKeyPoints : List String
  allCategories : List String
  failedPages : List Nat
  calls : List Nat
deriving DecidableEq

/-- One iteration of the `for (const match of pageMatches)` loop over a page
segment `(pageNumber, raw)`: trim the content, `continue` when shorter than 50
characters, otherwise issue the model call and either accumulate the analysis
or log the failure and continue. -/
def processSegment {ε : Type} (callPage : Nat → String → Except ε PageAnalysis)
    (st : BatchState) (seg : Nat × String) : BatchState :=
  let pageContent := jsTrim seg.2
  if pageContent.length < 50 then st
  else
    match callPage seg.1 pageContent with
    | Except.ok analysis =>
        ⟨st.pageAnalyses ++ [(seg.1, analysis)],
         st.allKeyPoints ++ analysis.keyPoints,
         st.allCategories ++ (match analysis.tnpscCategories with
           | some cats => cats
           | none => []),
         st.failedPages,
         st.calls ++ [seg.1]⟩
    | Except.error _ =>
        ⟨st.pageAnalyses, st.allKeyPoints, st.allCategories,
         st.failedPages ++ [seg.1], st.calls ++ [seg.1]⟩

/-- Aggregate returned by `analyzePdfContentComprehensive`, plus the trace
fields `failedPages` and `calls`. -/
structure ComprehensiveResult where
  pageAnalyses : List (Nat × PageAnalysis)
  overallSummary : String
  totalKeyPoints : List String
  tnpscCategories : List String
  failedPages : List Nat
  calls : List Nat
deriving DecidableEq

/-- `analyzePdfContentComprehensive`, taking the ordered page segments
`(pageNumber, raw OCR content)` that the `pageRegex.matchAll` extraction
produced, and the per-page model call as an oracle. -/
def analyzePdfContentComprehensive {ε : Type}
    (callPage : Nat → String → Except ε PageAnalysis)
    (segments : List (Nat × String)) : ComprehensiveResult :=
  let st := segments.foldl (processSegment callPage) ⟨[], [], [], [], []⟩
  ⟨st.pageAnalyses,
   "Comprehensive analysis of " ++ toString st.pageAnalyses.length ++ " pages with " ++
     toString st.allKeyPoints.length ++ " total key points.",
   st.allKeyPoints,
   jsSetDedup st.allCategories,
   st.failedPages,
   st.calls⟩

/-- The `(pageNumber, analysis)` pairs of segments whose model call succeeds,
in segment order. -/
def successesOf {ε : Type} (callPage : Nat → String → Except ε PageAnalysis)
    (segs : List (Nat × String)) : List (Nat × PageAnalysis) :=
  segs.filterMap (fun s =>
    match callPage s.1 (jsTrim s.2) with
    | Except.ok a => some (s.1, a)
    | Except.error _ => none)

/-- The page numbers of segments whose model call fails, in segment order. -/
def failuresOf {ε : Type} (callPage : Nat → String → Except ε PageAnalysis)
    (segs : List (Nat × String)) : List Nat :=
  segs.filterMap (fun s =>
    match callPage s.1 (jsTrim s.2) with
    | Except.ok _ => none
    | Except.error _ => some s.1)

/-! ## `generateQuestions` (src/unnamed/part_000, lines 138-185) -/

/-- The analysis-result records fed to `generateQuestions` (shape taken from
how the function reads them: `keyPoints`, `summary`, `tnpscRelevance`,
passing `studyPoints`/`tnpscCategories` through untouched). -/
structure AnalysisResult where
  keyPoints : List String
  summary : String
  tnpscRelevance : String
  studyPoints : List String
  tnpscCategories : List String
deriving DecidableEq

/-- The `matchingPairs` object of a match-the-following question. -/
structure MatchingPairs where
  columnI : List String
  columnII : List String
deriving DecidableEq

/-- A question object as parsed from the API payload.  `type`/`answer` are
`none` when absent (JS `undefined`/`null`); `some ""` is the present-but-empty
string, which is also falsy in JS.  `options` is `some xs` exactly when
`Array.isArray(q.options)` holds; `none` collapses "absent or not an array".
Other spread-through fields are `question` and `explanation`. -/
structure RawQuestion where
  question : String
  type : Option String
  options : Option (List String)
  answer : Option String
  matchingPairs : Option MatchingPairs
  explanation : String
deriving DecidableEq

/-- A formatted question after the defaulting `map`. -/
structure Question where
  question : String
  type : String
  options : List String
  answer : String
  matchingPairs : Option MatchingPairs
  explanation : String
deriving DecidableEq

/-- `{...q, type: q.type || "mcq", options: Array.isArray(q.options) ?
q.options : ["A","B","C","D"], answer: q.answer || "A", matchingPairs:
q.matchingPairs || null}`. -/
def formatQuestion (q : RawQuestion) : Question :=
  ⟨q.question,
   match q.type with
   | some t => if t = "" then "mcq" else t
   | none => "mcq",
   match q.options with
   | some xs => xs
   | none => ["A", "B", "C", "D"],
   match q.answer with
   | some a => if a = "" then "A" else a
   | none => "A",
   q.matchingPairs,
   q.explanation⟩

/-- The payload `safeParseJson` produced from the API response: either a JS
array of question objects, or some non-array value. -/
inductive QPayload where
  | arr (qs : List RawQuestion)
  | notArray
deriving DecidableEq

/-- The `{keyPoints, summary, tnpscRelevance}` projection built at the top of
`generateQuestions` (`result.keyPoints.join('\n')` etc.). -/
structure CombinedContent where
  keyPoints : String
  summary : String
  tnpscRelevance : String
deriving DecidableEq

/-- The `QuestionResult` value `generateQuestions` resolves with. -/
structure QuestionResult where
  questions : List Question
  summary : String
  keyPoints : List String
  difficulty : String
  totalQuestions : Nat
deriving DecidableEq

/-- `generateQuestions`, with the parsed API payload (the `safeParseJson`
output) given as input: format the questions (empty list when the payload is
not an array) and assemble the result record. -/
def generateQuestions (analysisResults : List AnalysisResult) (difficulty : String)
    (payload : QPayload) : QuestionResult :=
  let combinedContent := analysisResults.map (fun r =>
    CombinedContent.mk (String.intercalate "\n" r.keyPoints) r.summary r.tnpscRelevance)
  let formattedQuestions :=
    match payload with
    | QPayload.arr qs => qs.map formatQuestion
    | QPayload.notArray => []
  ⟨formattedQuestions,
   String.intercalate " " (combinedContent.map (fun c => c.summary)),
   (analysisResults.map (fun r => r.keyPoints)).flatten,
   difficulty,
   formattedQuestions.length⟩

/-! ## Concrete transports, oracles and inputs used by witnesses and
counterexamples -/

/-- A transport whose every attempt resolves with a 404 response. -/
def t404 : Nat → FetchOutcome Unit := fun _ => FetchOutcome.resp 404

/-- A transport that resolves with status 500 on the first three attempts and
status 200 from the fourth attempt on. -/
def t500x3 : Nat → FetchOutcome Unit := fun n =>
  if n < 3 then FetchOutcome.resp 500 else FetchOutcome.resp 200

/-- A transport that resolves with status 500 on the first two attempts and
status 200 from the third attempt on. -/
def t500x2 : Nat → FetchOutcome Unit := fun n =>
  if n < 2 then FetchOutcome.resp 500 else FetchOutcome.resp 200

/-- A transport whose every attempt fails at the network level. -/
def tNetFail : Nat → FetchOutcome Unit := fun _ => FetchOutcome.netErr ()

/-- A toy parse oracle accepting exactly the text `42` (witness input only). -/
def toyParse : String → Option Nat := fun t => if t = "42" then some 42 else none

/-- A parse oracle that rejects everything (witness input only). -/
def noParse : String → Option Nat := fun _ => none

/-- A per-page oracle that always fails (used only as a witness input). -/
def callAlwaysFails : Nat → String → Except Unit PageAnalysis :=
  fun _ _ => Except.error ()

/-- A 78-character page content (used only as a witness input). -/
def longContent : String :=
  "The Constitution of India establishes the parliamentary system of government."

/-- A per-page oracle that fails exactly on page 3 (used only as a witness
input). -/
def callFailsPage3 : Nat → String → Except Unit PageAnalysis := fun p _ =>
  if p = 3 then Except.error ()
  else Except.ok ⟨["point"], [], "sum", "rel", none⟩

/-! ## Retry-wrapper lemmas and claims -/

theorem fetchLoop_all_fail {ε : Type} (transport : Nat → FetchOutcome ε) (url : String)
    (retries : Nat) :
    ∀ (remaining delay nFetches : Nat) (waits : List Nat),
      (∀ k, nFetches ≤ k → k < nFetches + remaining → attemptFailsB transport k = true) →
      (fetchLoop transport url retries remaining delay nFetches waits).final =
        RetryFinal.error (FetchError.exhausted url retries) := by
  intro remaining
  induction remaining with
  | zero => intro delay nFetches waits _; rfl
  | succ r ih =>
    intro delay nFetches waits h
    have hn := h nFetches (Nat.le_refl _) (by omega)
    unfold attemptFailsB at hn
    rw [fetchLoop]
    cases htr : transport nFetches with
    | resp status =>
      rw [htr] at hn
      simp only [Bool.not_eq_true'] at hn
      dsimp only
      rw [if_neg (by simp [hn])]
      split
      · exact ih _ _ _ (fun k h1 h2 => h k (by omega) (by omega))
      · exact ih _ _ _ (fun k h1 h2 => h k (by omega) (by omega))
    | netErr e =>
      dsimp only
      exact ih _ _ _ (fun k h1 h2 => h k (by omega) (by omega))

theorem range_map_double (d m : Nat) :
    (List.range (m + 1)).map (fun k => d * 2 ^ k) =
      d :: (List.range m).map (fun k => d * 2 * 2 ^ k) := by
  have hfun : ((fun k => d * 2 ^ k) ∘ Nat.succ) = fun k => d * 2 * 2 ^ k := by
    funext k
    simp only [Function.comp_apply, pow_succ]
    ring
  rw [List.range_succ_eq_map, List.map_cons, List.map_map, hfun]
  simp

theorem fetchLoop_waits_shape {ε : Type} (transport : Nat → FetchOutcome ε) (url : String)
    (retries : Nat) :
    ∀ (remaining delay nFetches : Nat) (waits : List Nat),
      ∃ m, (fetchLoop transport url retries remaining delay nFetches waits).waits =
        waits ++ (List.range m).map (fun k => delay * 2 ^ k) := by
  intro remaining
  induction remaining with
  | zero => intro delay n w; exact ⟨0, by simp [fetchLoop]⟩
  | succ r ih =>
    intro delay n w
    rw [fetchLoop]
    cases htr : transport n with
    | resp status =>
      dsimp only
      by_cases hok : respOk status = true
      · exact ⟨0, by simp [hok]⟩
      · obtain ⟨m, hm⟩ := ih (delay * 2) (n + 1) (w ++ [delay])
        refine ⟨m + 1, ?_⟩
        rw [if_neg hok]
        split
        · rw [hm, range_map_double]
          simp [List.append_assoc]
        · rw [hm, range_map_double]
          simp [List.append_assoc]
    | netErr e =>
      dsimp only
      obtain ⟨m, hm⟩ := ih (delay * 2) (n + 1) (w ++ [delay])
      refine ⟨m + 1, ?_⟩
      rw [hm, range_map_double]
      simp [List.append_assoc]

/-- Claim C1 (code bug): the claim says a 4xx response makes `fetchWithRetry`
fail immediately with the HTTP error, with no further fetch attempts and no
backoff wait.  The code's `throw new Error(⟨HTTP error! ...⟩)` sits inside its
own `try` block, so the wrapper's `catch` swallows it: on a transport that
always returns 404 the wrapper issues all 3 fetch attempts, performs the
backoff waits 1000/2000/4000 ms, and finally fails with the exhausted-retries
error rather than the HTTP error — contradicting the claim, the function's own
doc comment ("retry logic for transient server errors (5xx) and network
issues") and its own log line "Client error (...). Aborting retries.". -/
theorem fetchWithRetry_clientError_retried_bug :
    fetchWithRetry t404 "https://example.com/a" defaultRetries defaultDelay =
      ⟨RetryFinal.error (FetchError.exhausted "https://example.com/a" 3), 3,
        [1000, 2000, 4000]⟩ := by
  decide

/-- Counterexample to claim C2 as stated: for a transport returning 500 on the
first three attempts and 200 on the fourth, `fetchWithRetry` with its default
`retries = 3` never reaches the fourth attempt — the loop makes 3 attempts in
total — so the result is the exhausted-retries error, not the 200 success. -/
theorem fetchWithRetry_500x3_then_200_fails :
    (fetchWithRetry t500x3 "https://example.com/b" defaultRetries defaultDelay).final =
      RetryFinal.error (FetchError.exhausted "https://example.com/b" 3) ∧
    (fetchWithRetry t500x3 "https://example.com/b" defaultRetries defaultDelay).final ≠
      RetryFinal.success 200 ∧
    (fetchWithRetry t500x3 "https://example.com/b" defaultRetries defaultDelay).fetches = 3 := by
  decide

/-- Claim C2 (amended): for a transport that returns status 500 on the first
two attempts and status 200 on the third, `fetchWithRetry` with its default
retry count (3 attempts in total) performs exactly 2 backoff retries (waits of
1000 ms and 2000 ms) and returns the successful 200 response. -/
theorem fetchWithRetry_500x2_then_200_succeeds :
    fetchWithRetry t500x2 "https://example.com/b" defaultRetries defaultDelay =
      ⟨RetryFinal.success 200, 3, [1000, 2000]⟩ := by
  decide

/-- Claim C3: when every allowed attempt fails (no 2xx response), the final
result of `fetchWithRetry` is the dedicated exhausted-retries error, whose
message names the URL and the attempt count, and which is a different error
value from the per-attempt HTTP errors and from any transport error. -/
theorem fetchWithRetry_exhausted_error {ε : Type} (transport : Nat → FetchOutcome ε)
    (url : String) (retries delay : Nat) (msg : ε → String)
    (h : ∀ k, k < retries → attemptFailsB transport k = true) :
    (fetchWithRetry transport url retries delay).final =
      RetryFinal.error (FetchError.exhausted url retries) ∧
    FetchError.message msg (FetchError.exhausted url retries : FetchError ε) =
      "Failed to fetch from " ++ url ++ " after " ++ toString retries ++ " attempts." ∧
    (∀ status : Nat,
      (FetchError.exhausted url retries : FetchError ε) ≠ FetchError.httpError status) ∧
    (∀ e : ε, (FetchError.exhausted url retries : FetchError ε) ≠ FetchError.netError e) := by
  refine ⟨?_, rfl, ?_, ?_⟩
  · exact fetchLoop_all_fail transport url retries retries delay 0 []
      (fun k _ h2 => h k (by omega))
  · intro status hco
    cases hco
  · intro e hco
    cases hco

/-- Witness for claim C3 at a transport that always fails at the network
level, with the default 3 attempts. -/
theorem fetchWithRetry_exhausted_error_witness :
    (∀ k, k < 3 → attemptFailsB tNetFail k = true) ∧
    (fetchWithRetry tNetFail "https://example.com/c" 3 1000).final =
      RetryFinal.error (FetchError.exhausted "https://example.com/c" 3) :=
  ⟨by decide,
   (fetchWithRetry_exhausted_error tNetFail "https://example.com/c" 3 1000
      (fun _ => "network error") (by decide)).1⟩

/-- Claim C9: the backoff waits of `fetchWithRetry` — whichever mix of 5xx
responses and network failures causes them — form one exponential sequence
from the single `delay` variable: reading the recorded waits in order, the
k-th wait (0-based) is `delay * 2 ^ k`, i.e. the delay doubles after each
wait. -/
theorem fetchWithRetry_backoff_waits {ε : Type} (transport : Nat → FetchOutcome ε)
    (url : String) (retries delay : Nat) :
    (fetchWithRetry transport url retries delay).waits =
      (List.range (fetchWithRetry transport url retries delay).waits.length).map
        (fun k => delay * 2 ^ k) := by
  obtain ⟨m, hm⟩ := fetchLoop_waits_shape transport url retries retries delay 0 []
  unfold fetchWithRetry
  rw [hm]
  simp

/-! ## Sanitizer lemmas -/

theorem isPrefixOf_cons₂ (a b : Char) (as bs : List Char) :
    List.isPrefixOf (a :: as) (b :: bs) = (a == b && List.isPrefixOf as bs) := rfl

theorem isPrefixOf_append_self : ∀ p t : List Char, p.isPrefixOf (p ++ t) = true := by
  intro p t
  induction p with
  | nil => exact List.isPrefixOf_nil_left
  | cons a as ih => simp [List.cons_append, isPrefixOf_cons₂, ih]

theorem isPrefixOf_length_le : ∀ {p cs : List Char}, p.isPrefixOf cs = true →
    p.length ≤ cs.length := by
  intro p
  induction p with
  | nil => intro cs _; simp
  | cons a as ih =>
    intro cs h
    cases cs with
    | nil => exact Bool.noConfusion h
    | cons b bs =>
      rw [isPrefixOf_cons₂] at h
      have h2 := (Bool.and_eq_true _ _).mp h
      simpa using ih h2.2

theorem isPrefixOf_iff_append : ∀ p cs : List Char,
    p.isPrefixOf cs = true ↔ ∃ t, cs = p ++ t := by
  intro p
  induction p with
  | nil =>
    intro cs
    exact ⟨fun _ => ⟨cs, rfl⟩, fun _ => List.isPrefixOf_nil_left⟩
  | cons a as ih =>
    intro cs
    cases cs with
    | nil =>
      constructor
      · intro h; exact absurd h (by intro hc; exact Bool.noConfusion hc)
      · rintro ⟨t, ht⟩; exact List.noConfusion ht
    | cons b bs =>
      rw [isPrefixOf_cons₂]
      constructor
      · intro h
        obtain ⟨h1, h2⟩ := (Bool.and_eq_true _ _).mp h
        obtain ⟨t, ht⟩ := (ih bs).mp h2
        refine ⟨t, ?_⟩
        rw [List.cons_append, ← ht, eq_of_beq h1]
      · rintro ⟨t, ht⟩
        injection ht with h1 h2
        subst h1
        have := (ih bs).mpr ⟨t, h2⟩
        simp [this]

theorem isPrefixOf_trans {p q r : List Char} (h1 : p.isPrefixOf q = true)
    (h2 : q.isPrefixOf r = true) : p.isPrefixOf r = true := by
  obtain ⟨t1, ht1⟩ := (isPrefixOf_iff_append p q).mp h1
  obtain ⟨t2, ht2⟩ := (isPrefixOf_iff_append q r).mp h2
  exact (isPrefixOf_iff_append p r).mpr ⟨t1 ++ t2, by rw [ht2, ht1, List.append_assoc]⟩

theorem isPrefixOf_append_cancel : ∀ p q r : List Char,
    (p ++ q).isPrefixOf (p ++ r) = q.isPrefixOf r := by
  intro p q r
  induction p with
  | nil => rfl
  | cons a as ih => simp [List.cons_append, isPrefixOf_cons₂, ih]

theorem isPrefixOf_append_cases : ∀ p t s : List Char,
    p.isPrefixOf (t ++ s) = true → p.isPrefixOf t = true ∨ t.isPrefixOf p = true := by
  intro p
  induction p with
  | nil => intro t s _; left; exact List.isPrefixOf_nil_left
  | cons a as ih =>
    intro t s h
    cases t with
    | nil => right; rfl
    | cons b bs =>
      rw [List.cons_append, isPrefixOf_cons₂] at h
      obtain ⟨h1, h2⟩ := (Bool.and_eq_true _ _).mp h
      have hab := eq_of_beq h1
      subst hab
      rcases ih bs s h2 with h3 | h3
      · left
        simp [isPrefixOf_cons₂, h3]
      · right
        simp [isPrefixOf_cons₂, h3]

theorem isPrefixOf_of_isPrefixOf_le : ∀ (a b cx : List Char),
    a.isPrefixOf cx = true → b.isPrefixOf cx = true → a.length ≤ b.length →
    a.isPrefixOf b = true := by
  intro a
  induction a with
  | nil => intro b cx _ _ _; exact List.isPrefixOf_nil_left
  | cons x xs ih =>
    intro b cx h1 h2 hle
    cases b with
    | nil => simp at hle
    | cons y ys =>
      cases cx with
      | nil => exact Bool.noConfusion h1
      | cons z zs =>
        rw [isPrefixOf_cons₂] at h1 h2 ⊢
        obtain ⟨h1a, h1b⟩ := (Bool.and_eq_true _ _).mp h1
        obtain ⟨h2a, h2b⟩ := (Bool.and_eq_true _ _).mp h2
        have hxz := eq_of_beq h1a
        have hyz := eq_of_beq h2a
        subst hxz
        subst hyz
        have hrec := ih ys zs h1b h2b (by simpa using hle)
        simp [hrec]

theorem replFuel_nil : ∀ f, replFuel f [] = [] := by
  intro f
  cases f with
  | zero => rfl
  | succ f => rfl

theorem replFuel_congr : ∀ (f : Nat) (cs : List Char) (g : Nat),
    cs.length ≤ f → cs.length ≤ g → replFuel f cs = replFuel g cs := by
  intro f
  induction f with
  | zero =>
    intro cs g h1 _
    have hnil : cs = [] := List.eq_nil_of_length_eq_zero (Nat.le_zero.mp h1)
    subst hnil
    rw [replFuel_nil, replFuel_nil]
  | succ f ih =>
    intro cs g h1 h2
    cases cs with
    | nil => rw [replFuel_nil, replFuel_nil]
    | cons a rest =>
      cases g with
      | zero => simp at h2
      | succ g =>
        have hlc : (a :: rest).length = rest.length + 1 := List.length_cons a rest
        show replStep (replFuel f) (a :: rest) = replStep (replFuel g) (a :: rest)
        unfold replStep
        by_cases h8 : ("```json\n".data).isPrefixOf (a :: rest) = true
        · rw [if_pos h8, if_pos h8]
          have hL : 8 ≤ (a :: rest).length := isPrefixOf_length_le h8
          apply ih
          · rw [List.length_drop]; omega
          · rw [List.length_drop]; omega
        · rw [if_neg h8, if_neg h8]
          by_cases h7 : ("```json".data).isPrefixOf (a :: rest) = true
          · rw [if_pos h7, if_pos h7]
            have hL : 7 ≤ (a :: rest).length := isPrefixOf_length_le h7
            apply ih
            · rw [List.length_drop]; omega
            · rw [List.length_drop]; omega
          · rw [if_neg h7, if_neg h7]
            by_cases h4 : ("\n```".data).isPrefixOf (a :: rest) = true
            · rw [if_pos h4, if_pos h4]
              have hL : 4 ≤ (a :: rest).length := isPrefixOf_length_le h4
              apply ih
              · rw [List.length_drop]; omega
              · rw [List.length_drop]; omega
            · rw [if_neg h4, if_neg h4]
              by_cases h3 : ("```".data).isPrefixOf (a :: rest) = true
              · rw [if_pos h3, if_pos h3]
                have hL : 3 ≤ (a :: rest).length := isPrefixOf_length_le h3
                apply ih
                · rw [List.length_drop]; omega
                · rw [List.length_drop]; omega
              · rw [if_neg h3, if_neg h3]
                dsimp only
                exact congrArg (a :: ·) (ih rest g (by omega) (by omega))

theorem replChars_eq_step : ∀ cs : List Char, replChars cs = replStep replChars cs := by
  intro cs
  cases cs with
  | nil => decide
  | cons a rest =>
    have hlc : (a :: rest).length = rest.length + 1 := List.length_cons a rest
    show replFuel (a :: rest).length (a :: rest) = replStep replChars (a :: rest)
    rw [hlc]
    show replStep (replFuel rest.length) (a :: rest) = replStep replChars (a :: rest)
    unfold replStep
    by_cases h8 : ("```json\n".data).isPrefixOf (a :: rest) = true
    · rw [if_pos h8, if_pos h8]
      exact replFuel_congr rest.length _ _ (by rw [List.length_drop]; omega) (Nat.le_refl _)
    · rw [if_neg h8, if_neg h8]
      by_cases h7 : ("```json".data).isPrefixOf (a :: rest) = true
      · rw [if_pos h7, if_pos h7]
        exact replFuel_congr rest.length _ _ (by rw [List.length_drop]; omega) (Nat.le_refl _)
      · rw [if_neg h7, if_neg h7]
        by_cases h4 : ("\n```".data).isPrefixOf (a :: rest) = true
        · rw [if_pos h4, if_pos h4]
          exact replFuel_congr rest.length _ _ (by rw [List.length_drop]; omega) (Nat.le_refl _)
        · rw [if_neg h4, if_neg h4]
          by_cases h3 : ("```".data).isPrefixOf (a :: rest) = true
          · rw [if_pos h3, if_pos h3]
            exact replFuel_congr rest.length _ _ (by rw [List.length_drop]; omega) (Nat.le_refl _)
          · rw [if_neg h3, if_neg h3]
            rfl

theorem drop_fence8 (x : List Char) : ("```json\n".data ++ x).drop 8 = x := by
  have h := List.drop_left ("```json\n".data) x
  rwa [show ("```json\n".data).length = 8 by decide] at h

theorem drop_fence7 (x : List Char) : ("```json".data ++ x).drop 7 = x := by
  have h := List.drop_left ("```json".data) x
  rwa [show ("```json".data).length = 7 by decide] at h

theorem drop_fence4 (x : List Char) : ("\n```".data ++ x).drop 4 = x := by
  have h := List.drop_left ("\n```".data) x
  rwa [show ("\n```".data).length = 4 by decide] at h

theorem drop_fence3 (x : List Char) : ("```".data ++ x).drop 3 = x := by
  have h := List.drop_left ("```".data) x
  rwa [show ("```".data).length = 3 by decide] at h

theorem isPrefixOf_json8_split (c : Char) (x : List Char) :
    ("```json\n".data).isPrefixOf ("```json".data ++ (c :: x)) = ('\n' == c) := by
  rw [show ("```json\n".data) = "```json".data ++ ['\n'] by decide,
    isPrefixOf_append_cancel, isPrefixOf_cons₂, List.isPrefixOf_nil_left, Bool.and_true]

theorem replChars_append_fence_aux : ∀ (n : Nat) (cs : List Char), cs.length ≤ n →
    replChars (cs ++ "\n```".data) = replChars cs := by
  intro n
  induction n with
  | zero =>
    intro cs h
    have hnil : cs = [] := List.eq_nil_of_length_eq_zero (Nat.le_zero.mp h)
    subst hnil
    decide
  | succ n ih =>
    intro cs hle
    by_cases h8 : ("```json\n".data).isPrefixOf cs = true
    · obtain ⟨t, ht⟩ := (isPrefixOf_iff_append ("```json\n".data) cs).mp h8
      subst ht
      rw [replChars_eq_step (("```json\n".data ++ t) ++ "\n```".data),
          replChars_eq_step ("```json\n".data ++ t)]
      unfold replStep
      rw [List.append_assoc]
      rw [if_pos (isPrefixOf_append_self ("```json\n".data) (t ++ "\n```".data)),
          if_pos (isPrefixOf_append_self ("```json\n".data) t)]
      have hd1 := drop_fence8 (t ++ "\n```".data)
      have hd2 := drop_fence8 t
      rw [hd1, hd2]
      apply ih
      have hla := List.length_append ("```json\n".data) t
      have hl8 : ("```json\n".data).length = 8 := by decide
      omega
    · by_cases h7 : ("```json".data).isPrefixOf cs = true
      · obtain ⟨t, ht⟩ := (isPrefixOf_iff_append ("```json".data) cs).mp h7
        subst ht
        cases t with
        | nil => decide
        | cons c t' =>
          have hc : ('\n' == c) = false := by
            rw [isPrefixOf_json8_split c t'] at h8
            cases hcc : ('\n' == c) with
            | false => rfl
            | true => exact absurd hcc h8
          rw [replChars_eq_step (("```json".data ++ (c :: t')) ++ "\n```".data),
              replChars_eq_step ("```json".data ++ (c :: t'))]
          unfold replStep
          have hassoc : (("```json".data ++ (c :: t')) ++ "\n```".data) =
              "```json".data ++ (c :: (t' ++ "\n```".data)) := by
            rw [List.append_assoc]
            rw [show (c :: t') ++ "\n```".data = c :: (t' ++ "\n```".data) from rfl]
          rw [hassoc]
          rw [if_neg (show ¬ ("```json\n".data).isPrefixOf
                ("```json".data ++ (c :: (t' ++ "\n```".data))) = true by
              rw [isPrefixOf_json8_split]; simp [hc])]
          rw [if_neg (show ¬ ("```json\n".data).isPrefixOf
                ("```json".data ++ (c :: t')) = true by
              rw [isPrefixOf_json8_split]; simp [hc])]
          rw [if_pos (isPrefixOf_append_self ("```json".data) (c :: (t' ++ "\n```".data))),
              if_pos (isPrefixOf_append_self ("```json".data) (c :: t'))]
          have hd1 := drop_fence7 (c :: (t' ++ "\n```".data))
          have hd2 := drop_fence7 (c :: t')
          rw [hd1, hd2]
          rw [show c :: (t' ++ "\n```".data) = (c :: t') ++ "\n```".data from rfl]
          apply ih
          have hla := List.length_append ("```json".data) (c :: t')
          have hl7 : ("```json".data).length = 7 := by decide
          omega
      · by_cases h4 : ("\n```".data).isPrefixOf cs = true
        · obtain ⟨t, ht⟩ := (isPrefixOf_iff_append ("\n```".data) cs).mp h4
          subst ht
          rw [replChars_eq_step (("\n```".data ++ t) ++ "\n```".data),
              replChars_eq_step ("\n```".data ++ t)]
          unfold replStep
          rw [List.append_assoc]
          have hno8 : ¬ ("```json\n".data).isPrefixOf
              ("\n```".data ++ (t ++ "\n```".data)) = true := by
            intro hcon
            rcases isPrefixOf_append_cases _ _ _ hcon with hx | hx
            · exact absurd hx (by decide)
            · exact absurd hx (by decide)
          have hno7 : ¬ ("```json".data).isPrefixOf
              ("\n```".data ++ (t ++ "\n```".data)) = true := by
            intro hcon
            rcases isPrefixOf_append_cases _ _ _ hcon with hx | hx
            · exact absurd hx (by decide)
            · exact absurd hx (by decide)
          rw [if_neg hno8, if_neg h8, if_neg hno7, if_neg h7,
              if_pos (isPrefixOf_append_self ("\n```".data) (t ++ "\n```".data)),
              if_pos (isPrefixOf_append_self ("\n```".data) t)]
          have hd1 := drop_fence4 (t ++ "\n```".data)
          have hd2 := drop_fence4 t
          rw [hd1, hd2]
          apply ih
          have hla := List.length_append ("\n```".data) t
          have hl4 : ("\n```".data).length = 4 := by decide
          omega
        · by_cases h3 : ("```".data).isPrefixOf cs = true
          · obtain ⟨t, ht⟩ := (isPrefixOf_iff_append ("```".data) cs).mp h3
            subst ht
            have hjson : ¬ ("json".data).isPrefixOf t = true := by
              intro hcon
              apply h7
              rw [show ("```json".data) = "```".data ++ "json".data by decide,
                  isPrefixOf_append_cancel]
              exact hcon
            by_cases hT : t.isPrefixOf ("json\n".data) = true
            · have hlen : t.length ≤ 3 := by
                by_contra hgt
                push_neg at hgt
                have hj4 : ("json".data).length = 4 := by decide
                exact hjson (isPrefixOf_of_isPrefixOf_le ("json".data) t ("json\n".data)
                  (by decide) hT (by omega))
              obtain ⟨u, hu⟩ := (isPrefixOf_iff_append t ("json\n".data)).mp hT
              have htake : t = ("json\n".data).take t.length := by
                rw [hu, List.take_left]
              have hei : t.length = 0 ∨ t.length = 1 ∨ t.length = 2 ∨ t.length = 3 := by
                omega
              rcases hei with hk | hk | hk | hk <;> rw [hk] at htake <;> subst htake <;>
                decide
            · rw [replChars_eq_step (("```".data ++ t) ++ "\n```".data),
                  replChars_eq_step ("```".data ++ t)]
              unfold replStep
              rw [List.append_assoc]
              have hno8 : ¬ ("```json\n".data).isPrefixOf
                  ("```".data ++ (t ++ "\n```".data)) = true := by
                intro hcon
                rw [show ("```json\n".data) = "```".data ++ "json\n".data by decide,
                    isPrefixOf_append_cancel] at hcon
                rcases isPrefixOf_append_cases _ _ _ hcon with hx | hx
                · exact hjson (isPrefixOf_trans (by decide) hx)
                · exact hT hx
              have hno7 : ¬ ("```json".data).isPrefixOf
                  ("```".data ++ (t ++ "\n```".data)) = true := by
                intro hcon
                rw [show ("```json".data) = "```".data ++ "json".data by decide,
                    isPrefixOf_append_cancel] at hcon
                rcases isPrefixOf_append_cases _ _ _ hcon with hx | hx
                · exact hjson hx
                · exact hT (isPrefixOf_trans hx (by decide))
              have hno4 : ¬ ("\n```".data).isPrefixOf
                  ("```".data ++ (t ++ "\n```".data)) = true := by
                intro hcon
                rcases isPrefixOf_append_cases _ _ _ hcon with hx | hx
                · exact absurd hx (by decide)
                · exact absurd hx (by decide)
              rw [if_neg hno8, if_neg h8, if_neg hno7, if_neg h7, if_neg hno4, if_neg h4,
                  if_pos (isPrefixOf_append_self ("```".data) (t ++ "\n```".data)),
                  if_pos (isPrefixOf_append_self ("```".data) t)]
              have hd1 := drop_fence3 (t ++ "\n```".data)
              have hd2 := drop_fence3 t
              rw [hd1, hd2]
              apply ih
              have hla := List.length_append ("```".data) t
              have hl3 : ("```".data).length = 3 := by decide
              omega
          · cases cs with
            | nil => decide
            | cons a rest =>
              by_cases hA : (a :: rest).isPrefixOf ("```json\n".data) = true
              · have hlen : (a :: rest).length ≤ 2 := by
                  by_contra hgt
                  push_neg at hgt
                  have hl3 : ("```".data).length = 3 := by decide
                  exact h3 (isPrefixOf_of_isPrefixOf_le ("```".data) (a :: rest)
                    ("```json\n".data) (by decide) hA (by omega))
                obtain ⟨u, hu⟩ :=
                  (isPrefixOf_iff_append (a :: rest) ("```json\n".data)).mp hA
                have htake : a :: rest = ("```json\n".data).take (a :: rest).length := by
                  rw [hu, List.take_left]
                have hlc : (a :: rest).length = rest.length + 1 := List.length_cons a rest
                have hei : (a :: rest).length = 1 ∨ (a :: rest).length = 2 := by omega
                rcases hei with hk | hk <;> rw [hk] at htake <;> rw [htake] <;> decide
              · by_cases hB : (a :: rest).isPrefixOf ("\n```".data) = true
                · have hlen : (a :: rest).length ≤ 3 := by
                    by_contra hgt
                    push_neg at hgt
                    have hl4 : ("\n```".data).length = 4 := by decide
                    exact h4 (isPrefixOf_of_isPrefixOf_le ("\n```".data) (a :: rest)
                      ("\n```".data) (by decide) hB (by omega))
                  obtain ⟨u, hu⟩ :=
                    (isPrefixOf_iff_append (a :: rest) ("\n```".data)).mp hB
                  have htake : a :: rest = ("\n```".data).take (a :: rest).length := by
                    rw [hu, List.take_left]
                  have hlc : (a :: rest).length = rest.length + 1 := List.length_cons a rest
                  have hei : (a :: rest).length = 1 ∨ (a :: rest).length = 2 ∨
                      (a :: rest).length = 3 := by omega
                  rcases hei with hk | hk | hk <;> rw [hk] at htake <;> rw [htake] <;> decide
                · have hno8 : ¬ ("```json\n".data).isPrefixOf
                      ((a :: rest) ++ "\n```".data) = true := by
                    intro hcon
                    rcases isPrefixOf_append_cases _ _ _ hcon with hx | hx
                    · exact h8 hx
                    · exact hA hx
                  have hno7 : ¬ ("```json".data).isPrefixOf
                      ((a :: rest) ++ "\n```".data) = true := by
                    intro hcon
                    rcases isPrefixOf_append_cases _ _ _ hcon with hx | hx
                    · exact h7 hx
                    · exact hA (isPrefixOf_trans hx (by decide))
                  have hno4 : ¬ ("\n```".data).isPrefixOf
                      ((a :: rest) ++ "\n```".data) = true := by
                    intro hcon
                    rcases isPrefixOf_append_cases _ _ _ hcon with hx | hx
                    · exact h4 hx
                    · exact hB hx
                  have hno3 : ¬ ("```".data).isPrefixOf
                      ((a :: rest) ++ "\n```".data) = true := by
                    intro hcon
                    rcases isPrefixOf_append_cases _ _ _ hcon with hx | hx
                    · exact h3 hx
                    · exact hA (isPrefixOf_trans hx (by decide))
                  rw [replChars_eq_step ((a :: rest) ++ "\n```".data),
                      replChars_eq_step (a :: rest)]
                  unfold replStep
                  rw [if_neg hno8, if_neg h8, if_neg hno7, if_neg h7, if_neg hno4, if_neg h4,
                      if_neg hno3, if_neg h3]
                  rw [List.cons_append]
                  dsimp only
                  have hrec := ih rest (by
                    have hlc : (a :: rest).length = rest.length + 1 := List.length_cons a rest
                    omega)
                  rw [hrec]

theorem cleanText_fenced (s : String) :
    cleanText ("```json\n" ++ s ++ "\n```") = cleanText s := by
  have key : replChars (("```json\n" ++ s ++ "\n```").data) = replChars s.data := by
    have hdata : ("```json\n" ++ s ++ "\n```").data =
        "```json\n".data ++ (s.data ++ "\n```".data) := by
      rw [String.data_append, String.data_append, List.append_assoc]
    rw [hdata, replChars_eq_step]
    unfold replStep
    rw [if_pos (isPrefixOf_append_self ("```json\n".data) (s.data ++ "\n```".data))]
    have hd := drop_fence8 (s.data ++ "\n```".data)
    rw [hd]
    exact replChars_append_fence_aux s.data.length s.data (Nat.le_refl _)
  unfold cleanText
  rw [key]

/-- Claim C4: wrapping a string in the markdown fences `"⟨fence⟩json\n" + s +
"\n⟨fence⟩"` does not change what `safeParseJson` parses: the fenced and the
bare input are always cleaned to the same text, so whenever `s` is valid JSON
(for a real `JSON.parse`, a string that is valid JSON after trimming also has
its cleaned form valid, since the fence regex can only remove backtick runs
sitting inside string literals; the hypothesis renders that as "the cleaned
form parses"), both calls succeed and return the same parsed value. -/
theorem safeParseJson_fenced_eq {J : Type} (jsonParse : String → Option J) (s : String)
    (h : (jsonParse (cleanText s)).isSome = true) :
    cleanText ("```json\n" ++ s ++ "\n```") = cleanText s ∧
    safeParseJson jsonParse ("```json\n" ++ s ++ "\n```") = safeParseJson jsonParse s ∧
    ∃ v, safeParseJson jsonParse s = Except.ok v := by
  obtain ⟨v, hv⟩ := Option.isSome_iff_exists.mp h
  refine ⟨cleanText_fenced s, ?_, ⟨v, ?_⟩⟩
  · unfold safeParseJson
    rw [cleanText_fenced, hv]
  · unfold safeParseJson
    rw [hv]

/-- Witness for claim C4 at the valid-JSON string `42`. -/
theorem safeParseJson_fenced_eq_witness :
    (toyParse (cleanText "42")).isSome = true ∧
    safeParseJson toyParse ("```json\n" ++ "42" ++ "\n```") = safeParseJson toyParse "42" :=
  ⟨by decide, (safeParseJson_fenced_eq toyParse "42" (by decide)).2.1⟩

/-- Claim C5: when the cleaned text does not parse (`JSON.parse` throws),
`safeParseJson` fails with the dedicated "Invalid JSON response" error rather
than crashing, and the failure carries the original input text (the
`rawContent` diagnostic logged at the throw site). -/
theorem safeParseJson_malformed_error {J : Type} (jsonParse : String → Option J)
    (text : String) (h : jsonParse (cleanText text) = none) :
    safeParseJson jsonParse text =
      Except.error ⟨"Invalid JSON response from API. The response could not be parsed.",
        text⟩ ∧
    (∀ f : ParseFailure, safeParseJson jsonParse text = Except.error f →
      f.rawContent = text) := by
  constructor
  · unfold safeParseJson
    rw [h]
  · intro f hf
    unfold safeParseJson at hf
    rw [h] at hf
    injection hf with h1
    rw [← h1]

/-- Witness for claim C5 at a concrete malformed input. -/
theorem safeParseJson_malformed_error_witness :
    noParse (cleanText "definitely not data") = none ∧
    safeParseJson noParse "definitely not data" =
      Except.error ⟨"Invalid JSON response from API. The response could not be parsed.",
        "definitely not data"⟩ :=
  ⟨rfl, (safeParseJson_malformed_error noParse "definitely not data" rfl).1⟩

/-! ## Batch-orchestrator lemmas and claims -/

theorem processSegment_skip {ε : Type} (c : Nat → String → Except ε PageAnalysis)
    (st : BatchState) (s : Nat × String) (hlen : (jsTrim s.2).length < 50) :
    processSegment c st s = st := by
  simp only [processSegment]
  rw [if_pos hlen]

theorem processSegment_ok {ε : Type} (c : Nat → String → Except ε PageAnalysis)
    (st : BatchState) (s : Nat × String) (a : PageAnalysis)
    (hlen : ¬ (jsTrim s.2).length < 50) (hc : c s.1 (jsTrim s.2) = Except.ok a) :
    processSegment c st s =
      ⟨st.pageAnalyses ++ [(s.1, a)], st.allKeyPoints ++ a.keyPoints,
       st.allCategories ++ (match a.tnpscCategories with
         | some cats => cats
         | none => []),
       st.failedPages, st.calls ++ [s.1]⟩ := by
  simp only [processSegment, hc]
  rw [if_neg hlen]

theorem processSegment_err {ε : Type} (c : Nat → String → Except ε PageAnalysis)
    (st : BatchState) (s : Nat × String) (e : ε)
    (hlen : ¬ (jsTrim s.2).length < 50) (hc : c s.1 (jsTrim s.2) = Except.error e) :
    processSegment c st s =
      ⟨st.pageAnalyses, st.allKeyPoints, st.allCategories,
       st.failedPages ++ [s.1], st.calls ++ [s.1]⟩ := by
  simp only [processSegment, hc]
  rw [if_neg hlen]

theorem foldl_processSegment_long {ε : Type} (c : Nat → String → Except ε PageAnalysis) :
    ∀ (segs : List (Nat × String)) (st : BatchState),
      (∀ s ∈ segs, 50 ≤ (jsTrim s.2).length) →
      (segs.foldl (processSegment c) st).pageAnalyses =
        st.pageAnalyses ++ successesOf c segs ∧
      (segs.foldl (processSegment c) st).failedPages =
        st.failedPages ++ failuresOf c segs := by
  intro segs
  induction segs with
  | nil =>
    intro st _
    simp [successesOf, failuresOf]
  | cons s rest ih =>
    intro st h
    have hs : ¬ (jsTrim s.2).length < 50 := by
      have := h s (List.mem_cons_self s rest)
      omega
    have hrest := ih (processSegment c st s) (fun x hx => h x (List.mem_cons_of_mem s hx))
    rw [List.foldl_cons] at *
    cases hcall : c s.1 (jsTrim s.2) with
    | ok a =>
      rw [processSegment_ok c st s a hs hcall] at hrest ⊢
      refine ⟨?_, ?_⟩
      · rw [hrest.1]
        simp [successesOf, List.filterMap_cons, hcall, List.append_assoc]
      · rw [hrest.2]
        simp [failuresOf, List.filterMap_cons, hcall]
    | error e =>
      rw [processSegment_err c st s e hs hcall] at hrest ⊢
      refine ⟨?_, ?_⟩
      · rw [hrest.1]
        simp [successesOf, List.filterMap_cons, hcall]
      · rw [hrest.2]
        simp [failuresOf, List.filterMap_cons, hcall, List.append_assoc]

theorem foldl_keyPoints_inv {ε : Type} (c : Nat → String → Except ε PageAnalysis) :
    ∀ (segs : List (Nat × String)) (st : BatchState),
      st.allKeyPoints = (st.pageAnalyses.map (fun pa => pa.2.keyPoints)).flatten →
      (segs.foldl (processSegment c) st).allKeyPoints =
        ((segs.foldl (processSegment c) st).pageAnalyses.map
          (fun pa => pa.2.keyPoints)).flatten := by
  intro segs
  induction segs with
  | nil => intro st h; simpa using h
  | cons s rest ih =>
    intro st h
    rw [List.foldl_cons]
    apply ih
    by_cases hlen : (jsTrim s.2).length < 50
    · rw [processSegment_skip c st s hlen]
      exact h
    · cases hcall : c s.1 (jsTrim s.2) with
      | ok a =>
        rw [processSegment_ok c st s a hlen hcall]
        simp [h, List.map_append, List.flatten_append]
      | error e =>
        rw [processSegment_err c st s e hlen hcall]
        exact h

theorem successesOf_length_of_ok {ε : Type} (c : Nat → String → Except ε PageAnalysis) :
    ∀ segs : List (Nat × String),
      (∀ s ∈ segs, (c s.1 (jsTrim s.2)).isOk = true) →
      (successesOf c segs).length = segs.length := by
  intro segs
  induction segs with
  | nil => intro _; rfl
  | cons s rest ih =>
    intro h
    cases hcall : c s.1 (jsTrim s.2) with
    | ok a =>
      simp only [successesOf, List.filterMap_cons, hcall]
      simpa [successesOf] using ih (fun x hx => h x (List.mem_cons_of_mem s hx))
    | error e =>
      have := h s (List.mem_cons_self s rest)
      rw [hcall] at this
      simp [Except.isOk, Except.toBool] at this

theorem failuresOf_nil_of_ok {ε : Type} (c : Nat → String → Except ε PageAnalysis) :
    ∀ segs : List (Nat × String),
      (∀ s ∈ segs, (c s.1 (jsTrim s.2)).isOk = true) →
      failuresOf c segs = [] := by
  intro segs
  induction segs with
  | nil => intro _; rfl
  | cons s rest ih =>
    intro h
    cases hcall : c s.1 (jsTrim s.2) with
    | ok a =>
      simp only [failuresOf, List.filterMap_cons, hcall]
      simpa [failuresOf] using ih (fun x hx => h x (List.mem_cons_of_mem s hx))
    | error e =>
      have := h s (List.mem_cons_self s rest)
      rw [hcall] at this
      simp [Except.isOk, Except.toBool] at this

/-- Claim C7: for every input (any page segments, any per-page outcome), the
aggregate of `analyzePdfContentComprehensive` reports in its overall summary
exactly the number of successfully processed pages (the length of
`pageAnalyses`) and the number of collected key points, and `totalKeyPoints`
is exactly the concatenation, in page-segment order, of the `keyPoints` lists
of the successfully processed pages. -/
theorem analyzePdfContentComprehensive_aggregate {ε : Type}
    (callPage : Nat → String → Except ε PageAnalysis) (segments : List (Nat × String)) :
    (analyzePdfContentComprehensive callPage segments).overallSummary =
      "Comprehensive analysis of " ++
        toString (analyzePdfContentComprehensive callPage segments).pageAnalyses.length ++
        " pages with " ++
        toString (analyzePdfContentComprehensive callPage segments).totalKeyPoints.length ++
        " total key points." ∧
    (analyzePdfContentComprehensive callPage segments).totalKeyPoints =
      ((analyzePdfContentComprehensive callPage segments).pageAnalyses.map
        (fun pa => pa.2.keyPoints)).flatten := by
  have hinv := foldl_keyPoints_inv callPage segments ⟨[], [], [], [], []⟩ (by simp)
  unfold analyzePdfContentComprehensive
  exact ⟨rfl, hinv⟩

/-- Claim C8: a page segment whose trimmed content is shorter than 50
characters is skipped outright — the orchestrator's entire result (including
the trace of issued model calls, so no transport call happens for it, and
`pageAnalyses`, `totalKeyPoints` and `tnpscCategories`) is the same as if the
segment were not in the input at all. -/
theorem analyzePdfContentComprehensive_skip_short {ε : Type}
    (callPage : Nat → String → Except ε PageAnalysis)
    (pre post : List (Nat × String)) (p : Nat) (raw : String)
    (h : (jsTrim raw).length < 50) :
    analyzePdfContentComprehensive callPage (pre ++ (p, raw) :: post) =
      analyzePdfContentComprehensive callPage (pre ++ post) := by
  unfold analyzePdfContentComprehensive
  rw [List.foldl_append, List.foldl_append, List.foldl_cons,
    processSegment_skip callPage _ (p, raw) h]

/-- Witness for claim C8: a 5-character segment is below the 50-character
threshold and its presence does not change the orchestrator's result. -/
theorem analyzePdfContentComprehensive_skip_short_witness :
    (jsTrim "short").length < 50 ∧
    analyzePdfContentComprehensive callAlwaysFails ([] ++ (7, "short") :: []) =
      analyzePdfContentComprehensive callAlwaysFails ([] ++ []) :=
  ⟨by decide,
   analyzePdfContentComprehensive_skip_short callAlwaysFails [] [] 7 "short" (by decide)⟩

/-- Claim C6: for five page segments (all above the length threshold) of which
exactly one fails during its model call, the orchestrator does not abort: its
`pageAnalyses` are exactly the success results of the other four segments, in
order, and the failing page is recorded (via the logged `failedPages` trace)
while processing continues past it. -/
theorem analyzePdfContentComprehensive_isolates_failure {ε : Type}
    (c : Nat → String → Except ε PageAnalysis)
    (pre post : List (Nat × String)) (fseg : Nat × String)
    (hcount : pre.length + post.length = 4)
    (hlong : ∀ s ∈ pre ++ fseg :: post, 50 ≤ (jsTrim s.2).length)
    (hok : ∀ s ∈ pre ++ post, (c s.1 (jsTrim s.2)).isOk = true)
    (hfail : (c fseg.1 (jsTrim fseg.2)).isOk = false) :
    (analyzePdfContentComprehensive c (pre ++ fseg :: post)).pageAnalyses =
      successesOf c (pre ++ post) ∧
    (analyzePdfContentComprehensive c (pre ++ fseg :: post)).pageAnalyses.length = 4 ∧
    (analyzePdfContentComprehensive c (pre ++ fseg :: post)).failedPages = [fseg.1] ∧
    (∀ s ∈ pre ++ post, ∀ a, c s.1 (jsTrim s.2) = Except.ok a →
      (s.1, a) ∈ (analyzePdfContentComprehensive c (pre ++ fseg :: post)).pageAnalyses) := by
  obtain ⟨e, hfe⟩ : ∃ e, c fseg.1 (jsTrim fseg.2) = Except.error e := by
    cases hcall : c fseg.1 (jsTrim fseg.2) with
    | ok a => rw [hcall] at hfail; simp [Except.isOk, Except.toBool] at hfail
    | error e => exact ⟨e, rfl⟩
  have hokPre : ∀ s ∈ pre, (c s.1 (jsTrim s.2)).isOk = true :=
    fun s hs => hok s (List.mem_append_left post hs)
  have hokPost : ∀ s ∈ post, (c s.1 (jsTrim s.2)).isOk = true :=
    fun s hs => hok s (List.mem_append_right pre hs)
  obtain ⟨hpa, hfp⟩ :=
    foldl_processSegment_long c (pre ++ fseg :: post) ⟨[], [], [], [], []⟩ hlong
  have hpaR : (analyzePdfContentComprehensive c (pre ++ fseg :: post)).pageAnalyses =
      successesOf c (pre ++ post) := by
    unfold analyzePdfContentComprehensive
    dsimp only
    rw [hpa]
    simp [successesOf, List.filterMap_append, List.filterMap_cons, hfe]
  have hfpR : (analyzePdfContentComprehensive c (pre ++ fseg :: post)).failedPages =
      [fseg.1] := by
    have h1 : failuresOf c pre = [] := failuresOf_nil_of_ok c pre hokPre
    have h2 : failuresOf c post = [] := failuresOf_nil_of_ok c post hokPost
    have hsplit : failuresOf c (pre ++ fseg :: post) =
        failuresOf c pre ++ failuresOf c [fseg] ++ failuresOf c post := by
      have hre : pre ++ fseg :: post = (pre ++ [fseg]) ++ post := by simp
      rw [hre]
      unfold failuresOf
      rw [List.filterMap_append, List.filterMap_append]
    have hone : failuresOf c [fseg] = [fseg.1] := by
      unfold failuresOf
      simp [List.filterMap_cons, hfe]
    unfold analyzePdfContentComprehensive
    dsimp only
    rw [hfp, hsplit, hone, h1, h2]
    simp
  refine ⟨hpaR, ?_, hfpR, ?_⟩
  · rw [hpaR, successesOf_length_of_ok c (pre ++ post) hok]
    simpa using hcount
  · intro s hs a hcall
    rw [hpaR]
    unfold successesOf
    exact List.mem_filterMap.mpr ⟨s, hs, by rw [hcall]⟩

/-- Witness for claim C6: five concrete long segments, the third of which
fails; the other four are aggregated and the failure is recorded. -/
theorem analyzePdfContentComprehensive_isolates_failure_witness :
    (∀ s ∈ ([(1, longContent), (2, longContent)] ++
        (3, longContent) :: [(4, longContent), (5, longContent)]),
      50 ≤ (jsTrim s.2).length) ∧
    (analyzePdfContentComprehensive callFailsPage3
        ([(1, longContent), (2, longContent)] ++
          (3, longContent) :: [(4, longContent), (5, longContent)])).failedPages = [3] ∧
    (analyzePdfContentComprehensive callFailsPage3
        ([(1, longContent), (2, longContent)] ++
          (3, longContent) :: [(4, longContent), (5, longContent)])).pageAnalyses.length = 4 := by
  have h := analyzePdfContentComprehensive_isolates_failure callFailsPage3
    [(1, longContent), (2, longContent)] [(4, longContent), (5, longContent)]
    (3, longContent) (by decide) (by decide) (by decide) (by decide)
  exact ⟨by decide, h.2.2.1, h.2.1⟩

/-! ## `generateQuestions` claim -/

/-- Claim C10: in every result `generateQuestions` returns, `totalQuestions`
equals the number of questions; every question has a non-empty `type` and a
non-empty `answer`; the defaulting map sends a missing/empty `type` to
`"mcq"`, a non-array `options` to the 4-element placeholder
`["A", "B", "C", "D"]`, a missing/empty `answer` to `"A"`, and passes
`matchingPairs` through (so it is possibly null); and a non-array parsed
payload yields an empty question list. -/
theorem generateQuestions_invariants (analysisResults : List AnalysisResult)
    (difficulty : String) (payload : QPayload) :
    (generateQuestions analysisResults difficulty payload).totalQuestions =
      (generateQuestions analysisResults difficulty payload).questions.length ∧
    (∀ q ∈ (generateQuestions analysisResults difficulty payload).questions,
      q.type ≠ "" ∧ q.answer ≠ "") ∧
    (∀ rq : RawQuestion,
      ((rq.type = none ∨ rq.type = some "") → (formatQuestion rq).type = "mcq") ∧
      (rq.options = none → (formatQuestion rq).options = ["A", "B", "C", "D"]) ∧
      ((rq.answer = none ∨ rq.answer = some "") → (formatQuestion rq).answer = "A") ∧
      (formatQuestion rq).matchingPairs = rq.matchingPairs) ∧
    (payload = QPayload.notArray →
      (generateQuestions analysisResults difficulty payload).questions = []) := by
  refine ⟨rfl, ?_, ?_, ?_⟩
  · intro q hq
    cases payload with
    | notArray => simp [generateQuestions] at hq
    | arr qs =>
      simp only [generateQuestions] at hq
      obtain ⟨rq, _, rfl⟩ := List.mem_map.mp hq
      unfold formatQuestion
      refine ⟨?_, ?_⟩
      · dsimp only
        cases rq.type with
        | none => simp
        | some t =>
          by_cases ht : t = ""
          · simp [ht]
          · simp [ht]
      · dsimp only
        cases rq.answer with
        | none => simp
        | some a =>
          by_cases ha : a = ""
          · simp [ha]
          · simp [ha]
  · intro rq
    refine ⟨?_, ?_, ?_, rfl⟩
    · intro htype
      unfold formatQuestion
      rcases htype with h | h <;> simp [h]
    · intro hopt
      unfold formatQuestion
      simp [hopt]
    · intro hans
      unfold formatQuestion
      rcases hans with h | h <;> simp [h]
  · intro hpay
    subst hpay
    rfl

/-- Witness for claim C10 at a concrete non-array payload. -/
theorem generateQuestions_invariants_witness :
    (generateQuestions [] "medium" QPayload.notArray).questions = [] ∧
    (generateQuestions [] "medium" QPayload.notArray).totalQuestions =
      (generateQuestions [] "medium" QPayload.notArray).questions.length :=
  ⟨(generateQuestions_invariants [] "medium" QPayload.notArray).2.2.2 rfl,
   (generateQuestions_invariants [] "medium" QPayload.notArray).1⟩

end StudyAssistantV3
